import Mathlib

/-!
A shallow embedding of the templify rendering core (`src/templify/core.py`)
and proofs about its placeholder-resolution behaviour.

Python strings are modelled as `List Char`; Python values (the trees passed
to `render_data` and the values stored in a context) are modelled by the
inductive type `Value`.  The JMESPath library is external to the repository
and is modelled as an abstract search function `Search`; everything else is
translated directly from the source.
-/

namespace Templify

/-- Python strings are modelled as lists of characters. -/
abbrev Str := List Char

/-- Convert a Lean string literal to the `Str` model. -/
def chars (s : String) : Str := s.data

/-- The `\x7b` character (opening curly brace). -/
def lbrace : Char := '\x7b'

/-- The `\x7d` character (closing curly brace). -/
def rbrace : Char := '\x7d'

/-- A Python value as handled by the renderer: `None`, booleans, integers,
strings, lists and string-keyed dicts, nested arbitrarily. -/
inductive Value where
  | vNone
  | vBool (b : Bool)
  | vInt (n : Int)
  | vStr (s : Str)
  | vList (items : List Value)
  | vDict (entries : List (Str × Value))

/-- Python `c in s` for a single character. -/
def containsChar (c : Char) : Str → Bool
  | [] => false
  | d :: rest => d = c || containsChar c rest

/-- Does `s` start with the pattern `pat` (Python `s.startswith(pat)`)? -/
def startsWithStr : Str → Str → Bool
  | [], _ => true
  | _ :: _, [] => false
  | p :: ps, c :: cs => p = c && startsWithStr ps cs

/-- Python `pat in s` for a multi-character pattern. -/
def containsSeq (pat : Str) : Str → Bool
  | [] => pat.isEmpty
  | c :: rest => startsWithStr pat (c :: rest) || containsSeq pat rest

/-- Number of occurrences of the character `c` in a string. -/
def countChar (c : Char) : Str → Nat
  | [] => 0
  | d :: rest => (if d = c then 1 else 0) + countChar c rest

/-- Python `s.split(sep)` for a single-character separator: always returns a
non-empty list of fields; `"".split(sep) == [""]`. -/
def splitOnChar (sep : Char) : Str → List Str
  | [] => [[]]
  | c :: rest =>
    if c = sep then [] :: splitOnChar sep rest
    else
      match splitOnChar sep rest with
      | p :: ps => (c :: p) :: ps
      | [] => [[c]]

/-- Python whitespace as stripped by `str.strip()`. -/
def isPySpace (c : Char) : Bool :=
  c = ' ' || c = '\t' || c = '\n' || c = '\r' || c = '\x0b' || c = '\x0c'

/-- Python `s.strip()`. -/
def strip (s : Str) : Str :=
  ((s.dropWhile isPySpace).reverse.dropWhile isPySpace).reverse

/-- Join a list of strings with a separator (Python `sep.join(parts)`). -/
def joinWith (sep : Str) : List Str → Str
  | [] => []
  | [x] => x
  | x :: rest => x ++ sep ++ joinWith sep rest

/-- Decimal rendering of an integer, as Python `str(int)` produces. -/
def pyIntStr (n : Int) : Str :=
  if n < 0 then '-' :: Nat.toDigits 10 n.natAbs else Nat.toDigits 10 n.toNat

/-- The quote character Python `repr` picks for a string: `'` unless the
string contains `'` and no `"`. -/
def pyQuote (s : Str) : Char :=
  if containsChar '\'' s && !containsChar '"' s then '"' else '\''

/-- Escaping of one character inside a Python string `repr` with quote `q`. -/
def pyEscChar (q c : Char) : Str :=
  if c = '\\' then ['\\', '\\']
  else if c = q then ['\\', q]
  else if c = '\n' then ['\\', 'n']
  else if c = '\r' then ['\\', 'r']
  else if c = '\t' then ['\\', 't']
  else [c]

/-- Escape every character of a string for `repr`. -/
def pyEscAll (q : Char) : Str → Str
  | [] => []
  | c :: rest => pyEscChar q c ++ pyEscAll q rest

/-- Python `repr` of a string (quote choice plus escaping). -/
def pyReprStr (s : Str) : Str :=
  let q := pyQuote s
  q :: (pyEscAll q s ++ [q])

mutual

/-- Python `repr` of a value (used by `str` for elements of containers). -/
def pyRepr : Value → Str
  | .vNone => chars "None"
  | .vBool b => if b then chars "True" else chars "False"
  | .vInt n => pyIntStr n
  | .vStr s => pyReprStr s
  | .vList items => '[' :: (joinWith (chars ", ") (pyReprList items) ++ [']'])
  | .vDict entries => lbrace :: (joinWith (chars ", ") (pyReprEntries entries) ++ [rbrace])

/-- `repr` of each element of a list. -/
def pyReprList : List Value → List Str
  | [] => []
  | v :: rest => pyRepr v :: pyReprList rest

/-- `repr(key): repr(value)` for each entry of a dict. -/
def pyReprEntries : List (Str × Value) → List Str
  | [] => []
  | (k, v) :: rest => (pyReprStr k ++ chars ": " ++ pyRepr v) :: pyReprEntries rest

end

/-- Python `str` of a value: identity on strings, `repr`-based otherwise. -/
def pyStr : Value → Str
  | .vStr s => s
  | v => pyRepr v

/-- First-match lookup in a dict's entry list (Python `dict.get`). -/
def lookupKey (k : Str) : List (Str × Value) → Option Value
  | [] => none
  | (k', v) :: rest => if k' = k then some v else lookupKey k rest

/-- The loop body of `get_value_from_path`: walk the already-split key list,
threading the original path string as Python's not-found default. -/
def getFromKeys (path : Str) : Value → List Str → Value
  | cur, [] => cur
  | cur, k :: ks =>
    match cur with
    | .vDict entries => getFromKeys path ((lookupKey k entries).getD (.vStr path)) ks
    | _ => .vStr path

/-- `get_value_from_path(obj, path)` from `core.py`: split the path on `.`,
descend one dict key per segment, and return the original path string as the
not-found sentinel. -/
def get_value_from_path (obj : Value) (path : Str) : Value :=
  getFromKeys path obj (splitOnChar '.' path)

/-- Specification-side path resolution: `some v` when every segment descends
an existing mapping key, `none` when any step meets a non-mapping or an
absent key.  Used to state what "the path resolves" means. -/
def resolveKeys : Value → List Str → Option Value
  | v, [] => some v
  | .vDict entries, k :: ks =>
    match lookupKey k entries with
    | some v => resolveKeys v ks
    | none => none
  | _, _ :: _ => none

/-- Path resolution on an unsplit path string. -/
def resolvePathOpt (obj : Value) (path : Str) : Option Value :=
  resolveKeys obj (splitOnChar '.' path)

/-- Python `value == s` for a value and a string: true only when the value is
that very string. -/
def valueIsStr (v : Value) (s : Str) : Bool :=
  match v with
  | .vStr t => t = s
  | _ => false

/-- A raised Python exception: `core.py` only ever raises `ValueError`
with a formatted message. -/
inductive PyError where
  | valueError (msg : Str)
deriving DecidableEq

/-- Is a character different from the closing brace?  The character class
`[^\x7d]` of the placeholder regexes. -/
def nonRB (c : Char) : Bool := c ≠ rbrace

/-- `re.sub(r'\x7b([^\x7d]+)\x7d', repl, s)`: scan left to right; at an
opening brace, a match needs a non-empty run of non-`\x7d` characters
followed by `\x7d`; replacements are substituted without rescanning and the
scan continues after the match; a failed position advances by one. -/
def subSingle (repl : Str → Str) : Str → Str
  | [] => []
  | c :: rest =>
    if c = lbrace then
      match h1 : rest.takeWhile nonRB, h2 : rest.dropWhile nonRB with
      | _ :: _, _ :: after2 => repl (rest.takeWhile nonRB) ++ subSingle repl after2
      | _, _ => c :: subSingle repl rest
    else c :: subSingle repl rest
termination_by s => s.length
decreasing_by
  · have h : (List.dropWhile nonRB rest).length ≤ rest.length :=
      List.Sublist.length_le (List.dropWhile_sublist _)
    rw [h2] at h
    simp only [List.length_cons] at h ⊢
    omega
  · simp
  · simp

/-- `re.sub(r'\x7b\x7b([^\x7d]+)\x7d\x7d', repl, s)` where the replacement
function may raise: a match needs `\x7b\x7b`, a non-empty run of non-`\x7d`
characters, then `\x7d\x7d`; a failed position advances by one. -/
def subDouble (repl : Str → Except PyError Str) : Str → Except PyError Str
  | [] => pure []
  | [c] => pure [c]
  | c1 :: c2 :: rest =>
    if c1 = lbrace ∧ c2 = lbrace then
      match h1 : rest.takeWhile nonRB, h2 : rest.dropWhile nonRB with
      | _ :: _, a1 :: a2 :: after2 =>
        if a1 = rbrace ∧ a2 = rbrace then do
          let r ← repl (rest.takeWhile nonRB)
          let t ← subDouble repl after2
          pure (r ++ t)
        else do
          let t ← subDouble repl (c2 :: rest)
          pure (c1 :: t)
      | _, _ => do
        let t ← subDouble repl (c2 :: rest)
        pure (c1 :: t)
    else do
      let t ← subDouble repl (c2 :: rest)
      pure (c1 :: t)
termination_by s => s.length
decreasing_by
  · have h : (List.dropWhile nonRB rest).length ≤ rest.length :=
      List.Sublist.length_le (List.dropWhile_sublist _)
    rw [h2] at h
    simp only [List.length_cons] at h ⊢
    omega
  all_goals simp

/-- The single-brace replacement function of `render_text`: resolve the body
as a dotted path; Python's `str(value) if value != placeholder else
f"\x7b\x7b\x7b placeholder \x7d\x7d\x7d"` keeps the braces exactly when the
resolved value equals the placeholder string (which Python's sentinel
convention produces for every missing path). -/
def replace_placeholder (context : List (Str × Value)) (body : Str) : Str :=
  let value := get_value_from_path (.vDict context) body
  if valueIsStr value body then lbrace :: (body ++ [rbrace]) else pyStr value

/-- `render_text(template, context)` from `core.py`. -/
def render_text (template : Str) (context : List (Str × Value)) : Str :=
  subSingle (replace_placeholder context) template

/-- The externally provided `jmespath.search`, modelled abstractly: it either
raises a `JMESPathError` (`.error`) or returns a value, possibly `None`. -/
abbrev Search := Str → Value → Except Unit Value

/-- `execute_jmespath_query(query, data)` from `core.py`, parameterised by
the abstract library search: a library error becomes
`ValueError("Invalid JMESPath query: ...")`; a `None` result becomes
`ValueError("JMESPath query returned None: ...")`; anything else is
returned. -/
def execute_jmespath_query (search : Search) (query : Str) (data : Value) :
    Except PyError Value :=
  match search query data with
  | .error _ => .error (.valueError (chars "Invalid JMESPath query: " ++ query))
  | .ok .vNone => .error (.valueError (chars "JMESPath query returned None: " ++ query))
  | .ok result => .ok result

/-- The double-brace replacement function `replace_jmespath` of
`render_jmespath_template`: a body without `|` is a bare path; otherwise it
must split on `|` into exactly two parts, the second (stripped) starting
with `jmespath(`, else `ValueError("Invalid JMESPath expression: ...")`;
the query text is the second part with `jmespath("` and `")` sliced off
(`[9:-2]`), the data path must resolve to something other than the
sentinel, and the query result is stringified. -/
def replace_jmespath (search : Search) (context : List (Str × Value)) (g : Str) :
    Except PyError Str :=
  let expr := strip g
  if containsChar '|' expr then
    let parts := splitOnChar '|' expr
    if parts.length ≠ 2 ∨ startsWithStr (chars "jmespath(") (strip (parts.getD 1 [])) = false then
      .error (.valueError (chars "Invalid JMESPath expression: " ++ expr))
    else
      let data_path := strip (parts.getD 0 [])
      let t := strip (parts.getD 1 [])
      let jmespath_expr := (t.drop 9).take (t.length - 11)
      let data := get_value_from_path (.vDict context) data_path
      if valueIsStr data data_path then
        .error (.valueError (chars "Data not found: " ++ data_path))
      else do
        let result ← execute_jmespath_query search jmespath_expr data
        pure (pyStr result)
  else
    pure (pyStr (get_value_from_path (.vDict context) expr))

/-- `render_jmespath_template(template, context)` from `core.py`. -/
def render_jmespath_template (search : Search) (template : Str)
    (context : List (Str × Value)) : Except PyError Str :=
  subDouble (replace_jmespath search context) template

/-- The string `\x7b\x7b` tested by `render_data`'s dispatch. -/
def dblOpen : Str := [lbrace, lbrace]

/-- The string `\x7d\x7d` tested by `render_data`'s dispatch. -/
def dblClose : Str := [rbrace, rbrace]

mutual

/-- `render_data(data, context)` from `core.py`: recurse through dicts and
lists; a string containing both `\x7b\x7b` and `\x7d\x7d` goes to
`render_jmespath_template`, any other string to `render_text`; other
scalars pass through.  Exceptions raised by the JMESPath path propagate. -/
def render_data (search : Search) (context : List (Str × Value)) :
    Value → Except PyError Value
  | .vDict entries => do
    let r ← renderEntries search context entries
    pure (.vDict r)
  | .vList items => do
    let r ← renderItems search context items
    pure (.vList r)
  | .vStr s =>
    if containsSeq dblOpen s && containsSeq dblClose s then do
      let r ← render_jmespath_template search s context
      pure (.vStr r)
    else pure (.vStr (render_text s context))
  | v => pure v

/-- Recursion of `render_data` over list elements. -/
def renderItems (search : Search) (context : List (Str × Value)) :
    List Value → Except PyError (List Value)
  | [] => pure []
  | v :: rest => do
    let r ← render_data search context v
    let rs ← renderItems search context rest
    pure (r :: rs)

/-- Recursion of `render_data` over dict entries (keys are kept). -/
def renderEntries (search : Search) (context : List (Str × Value)) :
    List (Str × Value) → Except PyError (List (Str × Value))
  | [] => pure []
  | (k, v) :: rest => do
    let r ← render_data search context v
    let rs ← renderEntries search context rest
    pure ((k, r) :: rs)

end

/-- Does the single-brace placeholder pattern match anywhere in the string?
Mirrors the match condition of `subSingle` at every position. -/
def hasSingleMatch : Str → Bool
  | [] => false
  | c :: rest =>
    (c = lbrace && !(rest.takeWhile nonRB).isEmpty && !(rest.dropWhile nonRB).isEmpty)
    || hasSingleMatch rest

/-- "No placeholder syntax" for one string leaf: the single-brace pattern
matches nowhere and the double-brace delimiters are not both present (so
neither scan can fire on it). -/
def strNoPlaceholder (s : Str) : Bool :=
  !hasSingleMatch s && !(containsSeq dblOpen s && containsSeq dblClose s)

mutual

/-- "No placeholder syntax in any string leaf" for a whole tree. -/
def treeNoPlaceholder : Value → Bool
  | .vStr s => strNoPlaceholder s
  | .vList items => listNoPlaceholder items
  | .vDict entries => entriesNoPlaceholder entries
  | _ => true

/-- `treeNoPlaceholder` over list elements. -/
def listNoPlaceholder : List Value → Bool
  | [] => true
  | v :: rest => treeNoPlaceholder v && listNoPlaceholder rest

/-- `treeNoPlaceholder` over dict entries. -/
def entriesNoPlaceholder : List (Str × Value) → Bool
  | [] => true
  | (_, v) :: rest => treeNoPlaceholder v && entriesNoPlaceholder rest

end

/-- A concrete library behaviour that always raises `JMESPathError`
(a syntactically invalid query). -/
def searchFail : Search := fun _ _ => .error ()

/-- A concrete library behaviour that always returns `None`. -/
def searchNone : Search := fun _ _ => .ok .vNone

/-- A concrete library behaviour returning a fixed value. -/
def searchConst (v : Value) : Search := fun _ _ => .ok v

/-! ### Helper lemmas about the scanners and the path resolver -/

theorem takeWhile_append_eq {q : Char → Bool} :
    ∀ (p : Str) (d : Char) (rest : Str), (∀ c ∈ p, q c = true) → q d = false →
      (p ++ d :: rest).takeWhile q = p
  | [], d, rest, _, hd => by simp [List.takeWhile, hd]
  | c :: p, d, rest, hp, hd => by
    have hc : q c = true := hp c (by simp)
    simp only [List.cons_append, List.takeWhile_cons, hc, if_true]
    rw [takeWhile_append_eq p d rest (fun x hx => hp x (by simp [hx])) hd]

theorem dropWhile_append_eq {q : Char → Bool} :
    ∀ (p : Str) (d : Char) (rest : Str), (∀ c ∈ p, q c = true) → q d = false →
      (p ++ d :: rest).dropWhile q = d :: rest
  | [], d, rest, _, hd => by simp [List.dropWhile, hd]
  | c :: p, d, rest, hp, hd => by
    have hc : q c = true := hp c (by simp)
    simp only [List.cons_append, List.dropWhile_cons, hc, if_true]
    exact dropWhile_append_eq p d rest (fun x hx => hp x (by simp [hx])) hd

theorem subSingle_nil (repl : Str → Str) : subSingle repl [] = [] := by
  simp [subSingle]

/-- One single-brace match at the head of the scan: the body is substituted
and scanning resumes after the closing brace. -/
theorem subSingle_match (repl : Str → Str) (p rest : Str) (hne : p ≠ [])
    (hp : ∀ c ∈ p, nonRB c = true) :
    subSingle repl (lbrace :: (p ++ rbrace :: rest)) = repl p ++ subSingle repl rest := by
  have ht : (p ++ rbrace :: rest).takeWhile nonRB = p :=
    takeWhile_append_eq p rbrace rest hp (by simp [nonRB])
  have hd : (p ++ rbrace :: rest).dropWhile nonRB = rbrace :: rest :=
    dropWhile_append_eq p rbrace rest hp (by simp [nonRB])
  obtain ⟨c0, p', rfl⟩ := List.exists_cons_of_ne_nil hne
  rw [subSingle]
  split
  · simp only [ht, hd]
    split
    · rename_i h2
      rw [hd] at h2
      cases h2
      rfl
    · exfalso
      rename_i hx
      exact hx c0 p' rbrace rest ht hd
  · simp at *

/-- A character that is not an opening brace is copied through. -/
theorem subSingle_skip (repl : Str → Str) (c : Char) (rest : Str) (hc : c ≠ lbrace) :
    subSingle repl (c :: rest) = c :: subSingle repl rest := by
  rw [subSingle]
  split
  · rename_i h
    exact absurd h hc
  · rfl

/-- `render_text` on a template that is exactly one placeholder. -/
theorem renderText_wholeLeaf (context : List (Str × Value)) (p : Str) (hne : p ≠ [])
    (hp : ∀ c ∈ p, nonRB c = true) :
    render_text (lbrace :: (p ++ [rbrace])) context = replace_placeholder context p := by
  have e : lbrace :: (p ++ [rbrace]) = lbrace :: (p ++ rbrace :: []) := rfl
  rw [render_text, e, subSingle_match _ p [] hne hp, subSingle_nil, List.append_nil]

/-- Once the walk holds the sentinel string, it stays there. -/
theorem getFromKeys_sentinel (path : Str) :
    ∀ (ks : List Str), getFromKeys path (.vStr path) ks = .vStr path
  | [] => rfl
  | _ :: _ => rfl

/-- The loop of `get_value_from_path` returns the resolved value when every
segment descends an existing key, and the sentinel otherwise. -/
theorem getFromKeys_eq (path : Str) :
    ∀ (ks : List Str) (cur : Value),
      getFromKeys path cur ks = (resolveKeys cur ks).getD (.vStr path)
  | [], cur => by simp [getFromKeys, resolveKeys]
  | k :: ks, cur => by
    cases cur with
    | vDict entries =>
      rw [getFromKeys, resolveKeys]
      cases h : lookupKey k entries with
      | some v => simp only [h, Option.getD_some]; exact getFromKeys_eq path ks v
      | none => simp only [h, Option.getD_some, Option.getD_none]
                exact getFromKeys_sentinel path ks
    | vNone => rfl
    | vBool b => rfl
    | vInt n => rfl
    | vStr s => rfl
    | vList items => rfl

/-- `get_value_from_path` against its specification-side resolver. -/
theorem get_value_from_path_eq (obj : Value) (path : Str) :
    get_value_from_path obj path = (resolvePathOpt obj path).getD (.vStr path) :=
  getFromKeys_eq path (splitOnChar '.' path) obj

/-- A path that resolves is returned as-is by `get_value_from_path`. -/
theorem get_value_from_path_resolved (obj : Value) (path : Str) (v : Value)
    (h : resolvePathOpt obj path = some v) : get_value_from_path obj path = v := by
  rw [get_value_from_path_eq, h, Option.getD_some]

/-- A path that does not resolve yields the sentinel: the path itself. -/
theorem get_value_from_path_missing (obj : Value) (path : Str)
    (h : resolvePathOpt obj path = none) : get_value_from_path obj path = .vStr path := by
  rw [get_value_from_path_eq, h, Option.getD_none]

/-- On an unresolved body, `replace_placeholder` restores the braces. -/
theorem replace_placeholder_missing (context : List (Str × Value)) (p : Str)
    (h : resolvePathOpt (.vDict context) p = none) :
    replace_placeholder context p = lbrace :: (p ++ [rbrace]) := by
  rw [replace_placeholder, get_value_from_path_missing _ _ h]
  simp [valueIsStr]

/-- On a body resolving to a value other than the path string itself,
`replace_placeholder` substitutes the stringified value. -/
theorem replace_placeholder_found (context : List (Str × Value)) (p : Str) (v : Value)
    (h : resolvePathOpt (.vDict context) p = some v) (hv : valueIsStr v p = false) :
    replace_placeholder context p = pyStr v := by
  rw [replace_placeholder, get_value_from_path_resolved _ _ _ h, hv]
  simp

/-- If the single-brace pattern matches nowhere, `subSingle` is the
identity, whatever the replacement function. -/
theorem subSingle_id (repl : Str → Str) :
    ∀ (s : Str), hasSingleMatch s = false → subSingle repl s = s
  | [], _ => subSingle_nil repl
  | c :: rest, h => by
    rw [hasSingleMatch] at h
    simp only [Bool.or_eq_false_iff] at h
    obtain ⟨hhere, hrest⟩ := h
    rw [subSingle]
    split
    · rename_i hcl
      split
      · rename_i l1 l2 a1 after2 ht hd
        exfalso
        rw [hcl, ht, hd] at hhere
        simp at hhere
      · exact congrArg (c :: ·) (subSingle_id repl rest hrest)
    · exact congrArg (c :: ·) (subSingle_id repl rest hrest)

theorem subDouble_nil (repl : Str → Except PyError Str) : subDouble repl [] = pure [] := by
  simp [subDouble]

theorem subDouble_one (repl : Str → Except PyError Str) (c : Char) :
    subDouble repl [c] = pure [c] := by
  simp [subDouble]

/-- A position that does not open a double-brace placeholder is copied
through and the scan moves on by one character. -/
theorem subDouble_skip (repl : Str → Except PyError Str) (c1 c2 : Char) (rest : Str)
    (h : ¬(c1 = lbrace ∧ c2 = lbrace)) :
    subDouble repl (c1 :: c2 :: rest) =
      (do
        let t ← subDouble repl (c2 :: rest)
        pure (c1 :: t)) := by
  rw [subDouble]
  split
  · rename_i hc
    exact absurd hc h
  · rfl

/-- One double-brace match at the head of the scan: the body is passed to
the replacement function and scanning resumes after the two closing
braces. -/
theorem subDouble_match (repl : Str → Except PyError Str) (b rest : Str) (hne : b ≠ [])
    (hb : ∀ c ∈ b, nonRB c = true) :
    subDouble repl (lbrace :: lbrace :: (b ++ rbrace :: rbrace :: rest)) =
      (do
        let r ← repl b
        let t ← subDouble repl rest
        pure (r ++ t)) := by
  have ht : (b ++ rbrace :: rbrace :: rest).takeWhile nonRB = b :=
    takeWhile_append_eq b rbrace (rbrace :: rest) hb (by simp [nonRB])
  have hd : (b ++ rbrace :: rbrace :: rest).dropWhile nonRB = rbrace :: rbrace :: rest :=
    dropWhile_append_eq b rbrace (rbrace :: rest) hb (by simp [nonRB])
  obtain ⟨c0, b', rfl⟩ := List.exists_cons_of_ne_nil hne
  rw [subDouble]
  split
  · split
    · rename_i h2
      rw [hd] at h2
      cases h2
      rw [ht]
      simp
    · exfalso
      rename_i hx
      exact hx c0 b' rbrace rbrace rest ht hd
  · simp at *

/-- `splitOnChar` never returns an empty list of fields. -/
theorem splitOnChar_ne_nil (sep : Char) : ∀ (s : Str), splitOnChar sep s ≠ []
  | [] => by simp [splitOnChar]
  | c :: rest => by
    rw [splitOnChar]
    split
    · simp
    · cases h : splitOnChar sep rest with
      | nil => exact absurd h (splitOnChar_ne_nil sep rest)
      | cons p ps => simp [h]

/-- The number of fields `split` produces is the separator count plus one. -/
theorem splitOnChar_length (sep : Char) :
    ∀ (s : Str), (splitOnChar sep s).length = countChar sep s + 1
  | [] => by simp [splitOnChar, countChar]
  | c :: rest => by
    rw [splitOnChar, countChar]
    split
    · rename_i hc
      simp only [List.length_cons, splitOnChar_length sep rest, hc, if_pos rfl]
      omega
    · rename_i hc
      cases h : splitOnChar sep rest with
      | nil => exact absurd h (splitOnChar_ne_nil sep rest)
      | cons p ps =>
        have hrec := splitOnChar_length sep rest
        rw [h] at hrec
        simp only [List.length_cons] at hrec
        simp only [h, List.length_cons]
        omega

/-- Two appends with equal-length distinct prefixes are distinct. -/
theorem append_ne_of_prefix_ne (a b x y : Str) (hlen : a.length = b.length)
    (hne : a ≠ b) : a ++ x ≠ b ++ y := by
  intro h
  exact hne (List.append_inj h hlen).1

/-- The dispatch of `render_data` on a string containing both double-brace
delimiters: only the JMESPath template renderer runs. -/
theorem renderData_str_double (search : Search) (ctx : List (Str × Value)) (s : Str)
    (h : (containsSeq dblOpen s && containsSeq dblClose s) = true) :
    render_data search ctx (.vStr s) =
      (do
        let r ← render_jmespath_template search s ctx
        pure (.vStr r)) := by
  simp only [render_data, h, if_true]

/-- The dispatch of `render_data` on a string missing a double-brace
delimiter: only the single-brace text renderer runs, and it cannot fail. -/
theorem renderData_str_single (search : Search) (ctx : List (Str × Value)) (s : Str)
    (h : (containsSeq dblOpen s && containsSeq dblClose s) = false) :
    render_data search ctx (.vStr s) = .ok (.vStr (render_text s ctx)) := by
  simp only [render_data, h, if_false]
  rfl

mutual

/-- `render_data` returns a placeholder-free tree unchanged. -/
theorem renderData_noph (search : Search) (ctx : List (Str × Value)) :
    ∀ (v : Value), treeNoPlaceholder v = true → render_data search ctx v = .ok v
  | .vNone, _ => rfl
  | .vBool _, _ => rfl
  | .vInt _, _ => rfl
  | .vStr s, h => by
    rw [treeNoPlaceholder, strNoPlaceholder] at h
    simp only [Bool.and_eq_true, Bool.not_eq_true'] at h
    obtain ⟨h1, h2⟩ := h
    rw [renderData_str_single search ctx s h2, render_text, subSingle_id _ s h1]
  | .vList items, h => by
    rw [treeNoPlaceholder] at h
    simp only [render_data, renderItems_noph search ctx items h]
    rfl
  | .vDict entries, h => by
    rw [treeNoPlaceholder] at h
    simp only [render_data, renderEntries_noph search ctx entries h]
    rfl

/-- `renderItems` returns placeholder-free elements unchanged. -/
theorem renderItems_noph (search : Search) (ctx : List (Str × Value)) :
    ∀ (items : List Value), listNoPlaceholder items = true →
      renderItems search ctx items = .ok items
  | [], _ => rfl
  | v :: rest, h => by
    rw [listNoPlaceholder, Bool.and_eq_true] at h
    simp only [renderItems, renderData_noph search ctx v h.1,
      renderItems_noph search ctx rest h.2]
    rfl

/-- `renderEntries` returns placeholder-free entries unchanged. -/
theorem renderEntries_noph (search : Search) (ctx : List (Str × Value)) :
    ∀ (entries : List (Str × Value)), entriesNoPlaceholder entries = true →
      renderEntries search ctx entries = .ok entries
  | [], _ => rfl
  | (k, v) :: rest, h => by
    rw [entriesNoPlaceholder, Bool.and_eq_true] at h
    simp only [renderEntries, renderData_noph search ctx v h.1,
      renderEntries_noph search ctx rest h.2]
    rfl

end

/-- A character occurring in a string (positive count) is contained in it. -/
theorem containsChar_of_countChar_pos (c : Char) :
    ∀ (s : Str), 0 < countChar c s → containsChar c s = true
  | d :: rest, h => by
    rw [countChar] at h
    rw [containsChar]
    by_cases hd : d = c
    · simp [hd]
    · simp only [hd, if_false] at h
      simp [containsChar_of_countChar_pos c rest (by omega)]

/-- Two appends whose prefixes disagree within the shorter prefix are
distinct. -/
theorem append_ne_of_take_ne (a b x y : Str) (n : Nat) (hna : n ≤ a.length)
    (hnb : n ≤ b.length) (h : a.take n ≠ b.take n) : a ++ x ≠ b ++ y := by
  intro he
  apply h
  have ht : (a ++ x).take n = (b ++ y).take n := by rw [he]
  rwa [List.take_append_of_le_length hna, List.take_append_of_le_length hnb] at ht

/-! ### Claim theorems -/

/-- C5: `get_value_from_path` is total (it returns a `Value`, never raises);
whenever any step meets a non-mapping current value or an absent key (the
path does not resolve), it returns the sentinel — the original path string —
and otherwise it returns the located value. -/
theorem C5_path_resolver_totality_sentinel (obj : Value) (path : Str) :
    (resolvePathOpt obj path = none → get_value_from_path obj path = .vStr path) ∧
    (∀ v, resolvePathOpt obj path = some v → get_value_from_path obj path = v) :=
  ⟨fun h => get_value_from_path_missing obj path h,
   fun _ h => get_value_from_path_resolved obj path _ h⟩

/-- Witness for C5 at a concrete context: the path `a` resolves to `7`, the
path `b.c` does not resolve and yields the sentinel string `b.c`. -/
theorem C5_witness :
    resolvePathOpt (.vDict [(chars "a", .vInt 7)]) (chars "b.c") = none ∧
    get_value_from_path (.vDict [(chars "a", .vInt 7)]) (chars "b.c") = .vStr (chars "b.c") ∧
    resolvePathOpt (.vDict [(chars "a", .vInt 7)]) (chars "a") = some (.vInt 7) ∧
    get_value_from_path (.vDict [(chars "a", .vInt 7)]) (chars "a") = .vInt 7 :=
  ⟨rfl,
   (C5_path_resolver_totality_sentinel (.vDict [(chars "a", .vInt 7)]) (chars "b.c")).1 rfl,
   rfl,
   (C5_path_resolver_totality_sentinel (.vDict [(chars "a", .vInt 7)]) (chars "a")).2 (.vInt 7) rfl⟩

/-- C4 counterexample: with context `\x7b"a": "a"\x7d` the path `a` is
present and resolves to the string `"a"`, whose `str` is `a`; but because
the resolved value equals the path string, `render_text` hits the sentinel
comparison and emits the placeholder verbatim instead. -/
theorem C4_counterexample :
    resolvePathOpt (.vDict [(chars "a", .vStr (chars "a"))]) (chars "a")
      = some (.vStr (chars "a")) ∧
    pyStr (.vStr (chars "a")) = chars "a" ∧
    render_text (chars "\x7ba\x7d") [(chars "a", .vStr (chars "a"))] = chars "\x7ba\x7d" ∧
    chars "\x7ba\x7d" ≠ chars "a" := by
  refine ⟨rfl, rfl, ?_, by decide⟩
  have e : chars "\x7ba\x7d" = lbrace :: (chars "a" ++ [rbrace]) := rfl
  rw [e, renderText_wholeLeaf _ _ (by decide) (by decide)]
  rfl

/-- C4 amended: for every context `C` and non-empty brace-free path `p`
that is present in `C`, and whose resolved value is not the string `p`
itself, rendering the single-placeholder template substitutes the
stringified resolved value: `render_text("\x7b" + p + "\x7d", C) =
str(resolvePath(C, p))`. -/
theorem C4_amended_present_path_substituted (C : List (Str × Value)) (p : Str) (v : Value)
    (hne : p ≠ []) (hp : ∀ c ∈ p, nonRB c = true)
    (hres : resolvePathOpt (.vDict C) p = some v)
    (hv : valueIsStr v p = false) :
    render_text (lbrace :: (p ++ [rbrace])) C = pyStr v := by
  rw [renderText_wholeLeaf C p hne hp, replace_placeholder_found C p v hres hv]

/-- Witness for the amended C4: `render_text("\x7ba\x7d", \x7b"a": 7\x7d)`
gives `"7"`. -/
theorem C4_witness :
    render_text (chars "\x7ba\x7d") [(chars "a", .vInt 7)] = chars "7" := by
  have h := C4_amended_present_path_substituted [(chars "a", .vInt 7)] (chars "a") (.vInt 7)
    (by decide) (by decide) rfl rfl
  exact h

/-- C2 counterexample: the code has no missing-key policy parameter and no
`DEFAULT` behaviour: rendering `\x7bx_num\x7d` against an empty context
yields the placeholder verbatim, not the claimed type-inferred default
`"0"`, and no `MissingVariable`-raising mode exists. -/
theorem C2_counterexample :
    render_text (chars "\x7bx_num\x7d") [] = chars "\x7bx_num\x7d" ∧
    chars "\x7bx_num\x7d" ≠ chars "0" := by
  refine ⟨?_, by decide⟩
  have e : chars "\x7bx_num\x7d" = lbrace :: (chars "x_num" ++ [rbrace]) := rfl
  rw [e, renderText_wholeLeaf _ _ (by decide) (by decide)]
  rfl

/-- C2 amended: `render_text` takes only a template and a context — no
policy parameter — and its sole behaviour on an unresolved placeholder is
the `KEEP` one: the placeholder is emitted verbatim with its braces; it is
total, so no `RAISE`-style failure exists. -/
theorem C2_amended_keep_only (C : List (Str × Value)) (p : Str)
    (hne : p ≠ []) (hp : ∀ c ∈ p, nonRB c = true)
    (hres : resolvePathOpt (.vDict C) p = none) :
    render_text (lbrace :: (p ++ [rbrace])) C = lbrace :: (p ++ [rbrace]) := by
  rw [renderText_wholeLeaf C p hne hp, replace_placeholder_missing C p hres]

/-- Witness for the amended C2: an unresolved `\x7bx_num\x7d` placeholder
stays verbatim. -/
theorem C2_witness :
    render_text (chars "\x7bx_num\x7d") [] = chars "\x7bx_num\x7d" := by
  have h := C2_amended_keep_only [] (chars "x_num") (by decide) (by decide) rfl
  exact h

/-- A double-brace body without a pipe is resolved as a bare path and
stringified. -/
theorem replace_jmespath_nopipe (search : Search) (ctx : List (Str × Value)) (g : Str)
    (h : containsChar '|' (strip g) = false) :
    replace_jmespath search ctx g
      = .ok (pyStr (get_value_from_path (.vDict ctx) (strip g))) := by
  simp only [replace_jmespath, h, Bool.false_eq_true, if_false]
  rfl

/-- C3 counterexample: under the only behaviour the code has (`KEEP`-like),
an unresolved double-brace placeholder is NOT emitted verbatim: rendering
the leaf `"\x7b\x7b missing \x7d\x7d"` against an empty context produces
the bare path text `"missing"`, dropping the braces. -/
theorem C3_counterexample :
    render_data searchFail [] (.vStr (chars "\x7b\x7b missing \x7d\x7d"))
      = .ok (.vStr (chars "missing")) ∧
    chars "missing" ≠ chars "\x7b\x7b missing \x7d\x7d" := by
  refine ⟨?_, by decide⟩
  rw [renderData_str_double _ _ _ (by decide)]
  have e : chars "\x7b\x7b missing \x7d\x7d"
      = lbrace :: lbrace :: (chars " missing " ++ rbrace :: rbrace :: []) := rfl
  rw [render_jmespath_template, e,
    subDouble_match _ (chars " missing ") [] (by decide) (by decide), subDouble_nil]
  rfl

/-- C3 amended: `KEEP`-style verbatim emission holds only for the
single-brace form; an unresolved bare-path double-brace placeholder is
instead replaced by the stringified sentinel, i.e. the bare path text
without any braces. -/
theorem C3_amended_keep_not_uniform (C : List (Str × Value)) (p : Str)
    (hne : p ≠ []) (hp : ∀ c ∈ p, nonRB c = true)
    (hres : resolvePathOpt (.vDict C) p = none) :
    (render_text (lbrace :: (p ++ [rbrace])) C = lbrace :: (p ++ [rbrace])) ∧
    (∀ (search : Search) (b : Str), b ≠ [] → (∀ c ∈ b, nonRB c = true) →
      strip b = p → containsChar '|' p = false →
      render_jmespath_template search (lbrace :: lbrace :: (b ++ [rbrace, rbrace])) C
        = .ok p) := by
  constructor
  · rw [renderText_wholeLeaf C p hne hp, replace_placeholder_missing C p hres]
  · intro search b hbne hb hstrip hpipe
    rw [render_jmespath_template,
      subDouble_match _ b [] hbne hb, subDouble_nil,
      replace_jmespath_nopipe search C b (by rw [hstrip]; exact hpipe),
      hstrip, get_value_from_path_missing _ _ hres]
    simp [pyStr]

/-- Witness for the amended C3: the single-brace `\x7bmissing\x7d` is kept
verbatim while the double-brace `\x7b\x7b missing \x7d\x7d` collapses to
`missing`. -/
theorem C3_witness :
    render_text (chars "\x7bmissing\x7d") [] = chars "\x7bmissing\x7d" ∧
    render_jmespath_template searchFail (chars "\x7b\x7b missing \x7d\x7d") []
      = .ok (chars "missing") := by
  have h := C3_amended_keep_not_uniform [] (chars "missing") (by decide) (by decide) rfl
  exact ⟨h.1, h.2 searchFail (chars " missing ") (by decide) (by decide) rfl rfl⟩

/-- C1: the Tree Renderer does NOT splice structured values.  On the spec's
own example — tree `\x7b"x": "\x7bobj\x7d"\x7d`, context
`\x7b"obj": \x7b"a": 1\x7d\x7d` — `render_data` delegates every string leaf
to `render_text`, which stringifies the resolved dict, yielding the leaf
`"\x7b'a': 1\x7d"` rather than the structured value (the behaviour the
repository's own tests `test_dict_in_placeholder` and
`test_array_in_placeholder` assert). -/
theorem C1_whole_leaf_stringified :
    render_data searchFail [(chars "obj", .vDict [(chars "a", .vInt 1)])]
        (.vDict [(chars "x", .vStr (chars "\x7bobj\x7d"))])
      = .ok (.vDict [(chars "x", .vStr (chars "\x7b'a': 1\x7d"))]) ∧
    (Value.vStr (chars "\x7b'a': 1\x7d") ≠ .vDict [(chars "a", .vInt 1)]) := by
  refine ⟨?_, fun h => nomatch h⟩
  have hrt : render_text (chars "\x7bobj\x7d")
      [(chars "obj", .vDict [(chars "a", .vInt 1)])] = chars "\x7b'a': 1\x7d" := by
    have e : chars "\x7bobj\x7d" = lbrace :: (chars "obj" ++ [rbrace]) := rfl
    rw [e, renderText_wholeLeaf _ _ (by decide) (by decide)]
    rfl
  simp only [render_data, renderEntries]
  rw [if_neg (by decide :
    ¬((containsSeq dblOpen (chars "\x7bobj\x7d")
        && containsSeq dblClose (chars "\x7bobj\x7d")) = true)), hrt]
  rfl

/-- C6: `execute_jmespath_query` turns a library-level syntax error into
the `Invalid JMESPath query` `ValueError`, turns a `None` (absence) result
into the `JMESPath query returned None` `ValueError` — absence is an error,
not an empty success — and returns any other value; both failures are the
same reportable category (`ValueError`) and are not recovered. -/
theorem C6_query_failure_modes (search : Search) (query : Str) (data : Value) :
    (∀ e, search query data = .error e →
      execute_jmespath_query search query data
        = .error (.valueError (chars "Invalid JMESPath query: " ++ query))) ∧
    (search query data = .ok .vNone →
      execute_jmespath_query search query data
        = .error (.valueError (chars "JMESPath query returned None: " ++ query))) ∧
    (∀ v, search query data = .ok v → v ≠ .vNone →
      execute_jmespath_query search query data = .ok v) := by
  refine ⟨fun e h => ?_, fun h => ?_, fun v h hv => ?_⟩
  · rw [execute_jmespath_query, h]
  · rw [execute_jmespath_query, h]
  · rw [execute_jmespath_query, h]
    cases v with
    | vNone => exact absurd rfl hv
    | vBool b => rfl
    | vInt n => rfl
    | vStr s => rfl
    | vList items => rfl
    | vDict entries => rfl

/-- Witness for C6: the three failure/success modes at concrete library
behaviours. -/
theorem C6_witness :
    execute_jmespath_query searchFail (chars "q") .vNone
      = .error (.valueError (chars "Invalid JMESPath query: q")) ∧
    execute_jmespath_query searchNone (chars "q") .vNone
      = .error (.valueError (chars "JMESPath query returned None: q")) ∧
    execute_jmespath_query (searchConst (.vInt 1)) (chars "q") .vNone = .ok (.vInt 1) :=
  ⟨(C6_query_failure_modes searchFail (chars "q") .vNone).1 () rfl,
   (C6_query_failure_modes searchNone (chars "q") .vNone).2.1 rfl,
   (C6_query_failure_modes (searchConst (.vInt 1)) (chars "q") .vNone).2.2 (.vInt 1) rfl
     (fun h => nomatch h)⟩

/-- A successful non-`None` library search is returned unchanged by
`execute_jmespath_query`: the wrapper imposes no restriction of its own on
the query text (pipes included). -/
theorem execute_jmespath_query_ok (search : Search) (q : Str) (d : Value) (v : Value)
    (h : search q d = .ok v) (hv : v ≠ .vNone) :
    execute_jmespath_query search q d = .ok v := by
  rw [execute_jmespath_query, h]
  cases v with
  | vNone => exact absurd rfl hv
  | vBool b => rfl
  | vInt n => rfl
  | vStr s => rfl
  | vList items => rfl
  | vDict entries => rfl

/-- Stringifying the result of `execute_jmespath_query` can fail only with
the query-level error messages, never with the grammar-level
`Invalid JMESPath expression` one. -/
theorem map_execute_ne_invalid_expr (search : Search) (q : Str) (d : Value) (e : Str) :
    pyStr <$> execute_jmespath_query search q d
      ≠ .error (.valueError (chars "Invalid JMESPath expression: " ++ e)) := by
  cases hsr : search q d with
  | error er =>
    simp only [execute_jmespath_query, hsr]
    intro heq
    have h1 := Except.error.inj heq
    have h2 := PyError.valueError.inj h1
    exact append_ne_of_take_ne _ _ _ _ 18 (by decide) (by decide) (by decide) h2
  | ok v =>
    cases v with
    | vNone =>
      simp only [execute_jmespath_query, hsr]
      intro heq
      have h1 := Except.error.inj heq
      have h2 := PyError.valueError.inj h1
      exact append_ne_of_take_ne _ _ _ _ 1 (by decide) (by decide) (by decide) h2
    | vBool b => simp [execute_jmespath_query, hsr]
    | vInt n => simp [execute_jmespath_query, hsr]
    | vStr s => simp [execute_jmespath_query, hsr]
    | vList items => simp [execute_jmespath_query, hsr]
    | vDict entries => simp [execute_jmespath_query, hsr]

/-- C7: the double-brace body grammar.  A body without `|` is resolved as a
bare path exactly like a simple reference; a body with `|` that does not
split into exactly two parts with the second, trimmed, starting with
`jmespath(` raises the `Invalid JMESPath expression` grammar error; a body
of the accepted shape never raises that grammar error. -/
theorem C7_double_brace_body_grammar (search : Search) (ctx : List (Str × Value)) (g : Str) :
    (containsChar '|' (strip g) = false →
      replace_jmespath search ctx g
        = .ok (pyStr (get_value_from_path (.vDict ctx) (strip g)))) ∧
    (containsChar '|' (strip g) = true →
      ((splitOnChar '|' (strip g)).length ≠ 2 ∨
        startsWithStr (chars "jmespath(") (strip ((splitOnChar '|' (strip g)).getD 1 [])) = false) →
      replace_jmespath search ctx g
        = .error (.valueError (chars "Invalid JMESPath expression: " ++ strip g))) ∧
    (containsChar '|' (strip g) = true →
      (splitOnChar '|' (strip g)).length = 2 →
      startsWithStr (chars "jmespath(") (strip ((splitOnChar '|' (strip g)).getD 1 [])) = true →
      replace_jmespath search ctx g
        ≠ .error (.valueError (chars "Invalid JMESPath expression: " ++ strip g))) := by
  refine ⟨replace_jmespath_nopipe search ctx g, fun hpipe hbad => ?_, fun hpipe hlen hstart => ?_⟩
  · simp only [replace_jmespath, hpipe, if_true]
    rw [if_pos hbad]
  · simp only [replace_jmespath, hpipe, if_true]
    rw [if_neg (fun hor => hor.elim (fun h1 => h1 hlen)
      (fun h2 => by rw [hstart] at h2; simp at h2))]
    split
    · intro heq
      have h1 := Except.error.inj heq
      have h2 := PyError.valueError.inj h1
      exact append_ne_of_take_ne _ _ _ _ 1 (by decide) (by decide) (by decide) h2
    · exact map_execute_ne_invalid_expr search _ _ _

/-- Witness for C7: all three grammar behaviours at concrete bodies. -/
theorem C7_witness :
    replace_jmespath searchFail [(chars "n", .vInt 5)] (chars "n")
      = .ok (chars "5") ∧
    replace_jmespath searchFail [] (chars "a | b | c")
      = .error (.valueError (chars "Invalid JMESPath expression: a | b | c")) ∧
    replace_jmespath (searchConst (.vInt 1)) [(chars "d", .vInt 2)]
        (chars "d | jmespath(\x22@\x22)")
      ≠ .error (.valueError (chars "Invalid JMESPath expression: d | jmespath(\x22@\x22)")) := by
  refine ⟨?_, ?_, ?_⟩
  · exact (C7_double_brace_body_grammar searchFail [(chars "n", .vInt 5)] (chars "n")).1 rfl
  · exact (C7_double_brace_body_grammar searchFail [] (chars "a | b | c")).2.1 rfl
      (Or.inl (by decide))
  · exact (C7_double_brace_body_grammar (searchConst (.vInt 1)) [(chars "d", .vInt 2)]
      (chars "d | jmespath(\x22@\x22)")).2.2 rfl (by decide) (by decide)

/-- C8: a tree with no placeholder syntax in any string leaf renders to
itself, for every context and any library behaviour: keys, lengths and
non-string leaves are preserved exactly. -/
theorem C8_idempotent_without_placeholders (search : Search) (C : List (Str × Value))
    (T : Value) (h : treeNoPlaceholder T = true) :
    render_data search C T = .ok T :=
  renderData_noph search C T h

/-- Witness for C8: a mixed nested tree free of placeholders is returned
unchanged. -/
theorem C8_witness :
    treeNoPlaceholder (.vDict [(chars "a", .vList [.vInt 1, .vStr (chars "plain text"),
        .vDict [(chars "b", .vNone)]]), (chars "c", .vBool true)]) = true ∧
    render_data searchFail [(chars "a", .vInt 9)]
        (.vDict [(chars "a", .vList [.vInt 1, .vStr (chars "plain text"),
          .vDict [(chars "b", .vNone)]]), (chars "c", .vBool true)])
      = .ok (.vDict [(chars "a", .vList [.vInt 1, .vStr (chars "plain text"),
          .vDict [(chars "b", .vNone)]]), (chars "c", .vBool true)]) :=
  ⟨rfl, C8_idempotent_without_placeholders searchFail [(chars "a", .vInt 9)]
    (.vDict [(chars "a", .vList [.vInt 1, .vStr (chars "plain text"),
      .vDict [(chars "b", .vNone)]]), (chars "c", .vBool true)]) rfl⟩

/-- C9 counterexample: in the string `"\x7ba\x7d \x7b\x7b b \x7d\x7d"`,
which contains both double-brace delimiters, only the double-brace renderer
runs: the simple placeholder `\x7ba\x7d` is left unresolved even though `a`
is present in the context, so the output is `"\x7ba\x7d 2"` and not the
claimed fully-resolved `"1 2"`. -/
theorem C9_counterexample :
    render_data searchFail [(chars "a", .vStr (chars "1")), (chars "b", .vStr (chars "2"))]
        (.vStr (chars "\x7ba\x7d \x7b\x7b b \x7d\x7d"))
      = .ok (.vStr (chars "\x7ba\x7d 2")) ∧
    chars "\x7ba\x7d 2" ≠ chars "1 2" := by
  refine ⟨?_, by decide⟩
  have h4 : subDouble (replace_jmespath searchFail
      [(chars "a", .vStr (chars "1")), (chars "b", .vStr (chars "2"))])
      (chars "\x7b\x7b b \x7d\x7d") = .ok (chars "2") := by
    have e : chars "\x7b\x7b b \x7d\x7d"
        = lbrace :: lbrace :: (chars " b " ++ rbrace :: rbrace :: []) := rfl
    rw [e, subDouble_match _ (chars " b ") [] (by decide) (by decide), subDouble_nil]
    rfl
  have h3 : subDouble (replace_jmespath searchFail
      [(chars "a", .vStr (chars "1")), (chars "b", .vStr (chars "2"))])
      (chars " \x7b\x7b b \x7d\x7d") = .ok (chars " 2") := by
    have e : chars " \x7b\x7b b \x7d\x7d" = ' ' :: lbrace :: chars "\x7b b \x7d\x7d" := rfl
    rw [e, subDouble_skip _ ' ' lbrace (chars "\x7b b \x7d\x7d") (by decide)]
    rw [show (lbrace :: chars "\x7b b \x7d\x7d") = chars "\x7b\x7b b \x7d\x7d" from rfl, h4]
    rfl
  have h2 : subDouble (replace_jmespath searchFail
      [(chars "a", .vStr (chars "1")), (chars "b", .vStr (chars "2"))])
      (chars "\x7d \x7b\x7b b \x7d\x7d") = .ok (chars "\x7d 2") := by
    have e : chars "\x7d \x7b\x7b b \x7d\x7d" = rbrace :: ' ' :: chars "\x7b\x7b b \x7d\x7d" := rfl
    rw [e, subDouble_skip _ rbrace ' ' (chars "\x7b\x7b b \x7d\x7d") (by decide)]
    rw [show (' ' :: chars "\x7b\x7b b \x7d\x7d") = chars " \x7b\x7b b \x7d\x7d" from rfl, h3]
    rfl
  have h1 : subDouble (replace_jmespath searchFail
      [(chars "a", .vStr (chars "1")), (chars "b", .vStr (chars "2"))])
      (chars "a\x7d \x7b\x7b b \x7d\x7d") = .ok (chars "a\x7d 2") := by
    have e : chars "a\x7d \x7b\x7b b \x7d\x7d" = 'a' :: rbrace :: chars " \x7b\x7b b \x7d\x7d" := rfl
    rw [e, subDouble_skip _ 'a' rbrace (chars " \x7b\x7b b \x7d\x7d") (by decide)]
    rw [show (rbrace :: chars " \x7b\x7b b \x7d\x7d") = chars "\x7d \x7b\x7b b \x7d\x7d" from rfl,
      h2]
    rfl
  have h0 : subDouble (replace_jmespath searchFail
      [(chars "a", .vStr (chars "1")), (chars "b", .vStr (chars "2"))])
      (chars "\x7ba\x7d \x7b\x7b b \x7d\x7d") = .ok (chars "\x7ba\x7d 2") := by
    have e : chars "\x7ba\x7d \x7b\x7b b \x7d\x7d"
        = lbrace :: 'a' :: chars "\x7d \x7b\x7b b \x7d\x7d" := rfl
    rw [e, subDouble_skip _ lbrace 'a' (chars "\x7d \x7b\x7b b \x7d\x7d") (by decide)]
    rw [show ('a' :: chars "\x7d \x7b\x7b b \x7d\x7d") = chars "a\x7d \x7b\x7b b \x7d\x7d" from rfl,
      h1]
    rfl
  rw [renderData_str_double _ _ _ (by decide), render_jmespath_template, h0]
  rfl

/-- C9 amended: the double-brace scan is attempted exactly on strings
containing both `\x7b\x7b` and `\x7d\x7d` (so a string with only single
braces never triggers it), but on such strings it is the ONLY scan: the
single-brace renderer is not applied, and simple placeholders in those
strings are left to the double-brace pattern alone. -/
theorem C9_amended_dispatch_exclusive (search : Search) (ctx : List (Str × Value)) (s : Str) :
    ((containsSeq dblOpen s && containsSeq dblClose s) = true →
      render_data search ctx (.vStr s)
        = (do
            let r ← render_jmespath_template search s ctx
            pure (.vStr r))) ∧
    ((containsSeq dblOpen s && containsSeq dblClose s) = false →
      render_data search ctx (.vStr s) = .ok (.vStr (render_text s ctx))) :=
  ⟨renderData_str_double search ctx s, renderData_str_single search ctx s⟩

/-- Witness for the amended C9: a string with both delimiters goes to the
JMESPath renderer only; a single-brace-only string goes to the text
renderer. -/
theorem C9_witness :
    render_data searchFail [] (.vStr (chars "\x7b\x7bq\x7d\x7d"))
      = (do
          let r ← render_jmespath_template searchFail (chars "\x7b\x7bq\x7d\x7d") []
          pure (.vStr r)) ∧
    render_data searchFail [] (.vStr (chars "\x7ba\x7d"))
      = .ok (.vStr (render_text (chars "\x7ba\x7d") [])) :=
  ⟨(C9_amended_dispatch_exclusive searchFail [] (chars "\x7b\x7bq\x7d\x7d")).1 rfl,
   (C9_amended_dispatch_exclusive searchFail [] (chars "\x7ba\x7d")).2 rfl⟩

/-- C10: a double-brace body whose stripped text contains two or more pipe
characters — including pipes inside the quoted query expression — always
renders to the `Invalid JMESPath expression` error, because the body is
split on every pipe and only exactly two parts are accepted; yet
`execute_jmespath_query` itself passes any query text (pipes included)
through to the library and returns a successful non-`None` result
unchanged. -/
theorem C10_extra_pipes_rejected (search : Search) (ctx : List (Str × Value)) (g : Str)
    (hne : g ≠ []) (hg : ∀ c ∈ g, nonRB c = true)
    (hp : 2 ≤ countChar '|' (strip g)) :
    render_jmespath_template search (lbrace :: lbrace :: (g ++ [rbrace, rbrace])) ctx
      = .error (.valueError (chars "Invalid JMESPath expression: " ++ strip g)) ∧
    (∀ (q : Str) (d : Value) (v : Value), search q d = .ok v → v ≠ .vNone →
      execute_jmespath_query search q d = .ok v) := by
  constructor
  · have hpipe : containsChar '|' (strip g) = true :=
      containsChar_of_countChar_pos '|' (strip g) (by omega)
    have hlen : (splitOnChar '|' (strip g)).length = countChar '|' (strip g) + 1 :=
      splitOnChar_length '|' (strip g)
    rw [render_jmespath_template, subDouble_match _ g [] hne hg, subDouble_nil]
    simp only [replace_jmespath, hpipe, if_true]
    rw [if_pos (Or.inl (by omega))]
    rfl
  · exact fun q d v h hv => execute_jmespath_query_ok search q d v h hv

/-- Witness for C10: the docstring-style body
`a | jmespath("b | c")` has two pipes and is rejected at the template
level, while the wrapper happily returns a library success for the piped
query `b | c`. -/
theorem C10_witness :
    render_jmespath_template (searchConst (.vInt 1))
        (lbrace :: lbrace :: (chars "a | jmespath(\x22b | c\x22)" ++ [rbrace, rbrace])) []
      = .error (.valueError
          (chars "Invalid JMESPath expression: a | jmespath(\x22b | c\x22)")) ∧
    execute_jmespath_query (searchConst (.vInt 1)) (chars "b | c") (.vInt 0) = .ok (.vInt 1) := by
  have h := C10_extra_pipes_rejected (searchConst (.vInt 1)) []
    (chars "a | jmespath(\x22b | c\x22)") (by decide) (by decide) (by decide)
  exact ⟨h.1, h.2 (chars "b | c") (.vInt 0) (.vInt 1) rfl (fun hx => nomatch hx)⟩

end Templify
